import Mathlib

/-!
Verification development for a browser-extension conversation exporter.

The embedding below follows the JavaScript sources:
* `MarkdownConverter` (markdown utilities): `htmlToMarkdown` / `processNode` /
  `processList` / `processTable` / `detectLanguage` / `formatConversation` /
  `sanitizeFilename`;
* the content script: `loadAllSidebarConversations`, `exportAllConversations`,
  `getExportedConversations`, `markAsExported`;
* the service worker's `downloadFile` is the abstract Download Sink: it either
  answers with a `{success}` response or the message channel errors out.

DOM trees are modelled by the `Node` inductive (text nodes, element nodes and
a constructor for the remaining node kinds, which the converter maps to "").
Strings are Lean `String`s; the JavaScript string primitives used by the
source (`toLowerCase`, `trim`, `split`, `replace`, regexes) are implemented
explicitly over `List Char` below.  Characters are Unicode code points, which
coincides with JavaScript UTF-16 semantics on the Basic Multilingual Plane;
the ASCII-only JS lowercasing relevant to HTML tag names is `Char.toLower`.
-/

/-! ### JavaScript string primitives -/

/-- JS `String.prototype.toLowerCase` restricted to the ASCII range (tag names
and language indicators in the source are ASCII). -/
def jsToLower (s : String) : String :=
  String.mk (s.data.map Char.toLower)

/-- The ECMAScript whitespace class (`\s`, and the set trimmed by
`String.prototype.trim`): tab, LF, VT, FF, CR, space, NBSP, the Unicode
space separators, line/paragraph separators and BOM, by code point. -/
def jsWhitespaceChar (c : Char) : Bool :=
  let n := c.toNat
  n = 9 || n = 10 || n = 11 || n = 12 || n = 13 || n = 32 ||
  n = 0xa0 || n = 0x1680 || (0x2000 ≤ n && n ≤ 0x200a) ||
  n = 0x2028 || n = 0x2029 || n = 0x202f || n = 0x205f ||
  n = 0x3000 || n = 0xfeff

/-- JS `String.prototype.trim`: strip leading and trailing whitespace. -/
def jsTrim (s : String) : String :=
  String.mk (((s.data.dropWhile jsWhitespaceChar).reverse.dropWhile
    jsWhitespaceChar).reverse)

/-- JS `split('\n')` (splitting on a single newline character). -/
def splitNl : List Char → List String
  | [] => [""]
  | c :: rest =>
    match splitNl rest with
    | [] => [""]
    | s :: ss => if c = '\n' then "" :: s :: ss else String.mk (c :: s.data) :: ss

/-- Is `p` a prefix of `l`? (JS `String.prototype.startsWith`.) -/
def isPrefixL : List Char → List Char → Bool
  | [], _ => true
  | _ :: _, [] => false
  | a :: ps, b :: cs => if a = b then isPrefixL ps cs else false

/-- JS `String.prototype.startsWith`. -/
def jsStartsWith (s p : String) : Bool := isPrefixL p.data s.data

/-- Does `sub` occur as a contiguous substring? (CSS `[class*="…"]`, JS
`String.prototype.includes`.) -/
def containsSubL (sub : List Char) : List Char → Bool
  | [] => isPrefixL sub []
  | c :: cs => isPrefixL sub (c :: cs) || containsSubL sub cs

/-- JS `String.prototype.includes`. -/
def jsIncludes (s sub : String) : Bool := containsSubL sub.data s.data

/-- JS `replace(pat, '')` with a string pattern: remove the first occurrence
of `pat` (a no-op when `pat` does not occur). -/
def removeFirstL (pat : List Char) : List Char → List Char
  | [] => []
  | c :: cs =>
    if isPrefixL pat (c :: cs) then (c :: cs).drop pat.length
    else c :: removeFirstL pat cs

/-- JS `replace(pat, '')` on strings. -/
def jsRemoveFirst (s pat : String) : String :=
  String.mk (removeFirstL pat.data s.data)

/-- A JS `\w` word character: `[A-Za-z0-9_]`. -/
def jsWordChar (c : Char) : Bool := c.isAlpha || c.isDigit || c = '_'

/-- The regex `/language-(\w+)/`: find the first occurrence of `language-`
that is followed by at least one word character and return the maximal word
run after it. -/
def langWordL : List Char → Option String
  | [] => none
  | c :: cs =>
    if isPrefixL "language-".data (c :: cs) &&
        jsWordChar (((c :: cs).drop 9).headD ' ') then
      some (String.mk (((c :: cs).drop 9).takeWhile jsWordChar))
    else langWordL cs

/-- `/language-(\w+)/` applied to a class attribute string. -/
def langWord (s : String) : Option String := langWordL s.data

/-- Split a class attribute into its whitespace-separated class tokens
(the DOM `classList`). -/
def classTokens (s : String) : List String :=
  (s.split (fun c => jsWhitespaceChar c)).filter (fun t => ¬ t = "")

/-! ### The document tree model -/

/-- A DOM node: a text node (`Node.TEXT_NODE`), an element node
(`Node.ELEMENT_NODE`, with tag name, attribute list and child nodes in
document order), or any other node kind (comments, etc.), which
`processNode` maps to the empty string. -/
inductive Node where
  | text (s : String)
  | elem (tag : String) (attrs : List (String × String)) (children : List Node)
  | otherKind
deriving Repr

/-- DOM `getAttribute`: the first attribute with the given name, or `none`. -/
def getAttr (attrs : List (String × String)) (name : String) : Option String :=
  (attrs.find? (fun p => p.1 = name)).map (fun p => p.2)

/-- The `class` attribute of an element (empty when absent or on non-elements). -/
def classAttr : Node → String
  | .elem _ attrs _ => (getAttr attrs "class").getD ""
  | _ => ""

/-- The `classList` of a node. -/
def classListOf (n : Node) : List String := classTokens (classAttr n)

/-- DOM `textContent`: concatenation of all descendant text, in document
order. -/
def textContent : Node → String
  | .text s => s
  | .otherKind => ""
  | .elem _ _ cs => textContentList cs
where textContentList : List Node → String
  | [] => ""
  | c :: cs => textContent c ++ textContentList cs

/-- Does this element node carry the given (lower-cased) tag name? -/
def hasTag (t : String) : Node → Bool
  | .elem tag _ _ => jsToLower tag = t
  | _ => false

/-- `querySelector(tag)`: first element descendant with the given tag name,
pre-order (document order).  The root itself is not considered, matching
DOM `querySelector` semantics. -/
def firstDescTag (t : String) : Node → Option Node
  | .elem _ _ cs => firstInList cs
  | _ => none
where firstInList : List Node → Option Node
  | [] => none
  | c :: cs =>
    if hasTag t c then some c
    else match firstDescTag t c with
      | some r => some r
      | none => firstInList cs

/-- `querySelector('.cls')`: first element descendant carrying the given
class token. -/
def firstDescClass (cls : String) : Node → Option Node
  | .elem _ _ cs => firstInList cs
  | _ => none
where firstInList : List Node → Option Node
  | [] => none
  | c :: cs =>
    if (match c with | .elem _ _ _ => (classListOf c).contains cls | _ => false) then
      some c
    else match firstDescClass cls c with
      | some r => some r
      | none => firstInList cs

/-- All `tr` element descendants of the given node, in document order
(`querySelectorAll('tr')`). -/
def trDescendants : Node → List Node
  | .elem _ _ cs => trInList cs
  | _ => []
where trInList : List Node → List Node
  | [] => []
  | c :: cs => (if hasTag "tr" c then [c] else []) ++ trDescendants c ++ trInList cs

/-- All `th`/`td` element descendants of the given node, in document order
(`querySelectorAll('th, td')`). -/
def cellDescendants : Node → List Node
  | .elem _ _ cs => cellsInList cs
  | _ => []
where cellsInList : List Node → List Node
  | [] => []
  | c :: cs =>
    (if hasTag "th" c || hasTag "td" c then [c] else []) ++
      cellDescendants c ++ cellsInList cs

/-- DOM `closest(sel)` over an explicit ancestor chain: examine the node
itself and then its ancestors (nearest first), returning the first one
satisfying the predicate. -/
def closestChain (p : Node → Bool) : List Node → Option Node
  | [] => none
  | n :: rest => if p n then some n else closestChain p rest

/-! ### The Markdown transducer -/

/-- Escape literal pipes in a table cell: `replace(/\|/g, '\\|')`. -/
def escapePipes (s : String) : String :=
  String.mk (s.data.flatMap (fun c => if c = '|' then ['\\', '|'] else [c]))

/-- Join cell strings as one Markdown table row: `'| ' + join(' | ') + ' |'`. -/
def mkRowLine (cells : List String) : String :=
  "| " ++ String.intercalate " | " cells ++ " |"

/-- `node.parentElement && node.parentElement.tagName.toLowerCase() === 'pre'`:
the nearest ancestor element exists and is a `pre`. -/
def isPreParent : List Node → Bool
  | .elem t _ _ :: _ => jsToLower t = "pre"
  | _ => false

/-- The `for (const cls of classes)` loop of `detectLanguage`: the first class
beginning with `language-` or `lang-`, with that prefix removed (the source
uses `replace`, which removes the first occurrence). -/
def classLang : List String → Option String
  | [] => none
  | cls :: rest =>
    if jsStartsWith cls "language-" then some (jsRemoveFirst cls "language-")
    else if jsStartsWith cls "lang-" then some (jsRemoveFirst cls "lang-")
    else classLang rest

/-- `detectLanguage(preElement)`: the language-detection chain.  `ancs` is the
ancestor-element chain of the `pre` element (nearest first), consulted by the
source through `closest`. -/
def detectLanguage (ancs : List Node) (pre : Node) : String :=
  let fromCode := match firstDescTag "code" pre with
    | some codeEl => classLang (classListOf codeEl)
    | none => none
  match fromCode with
  | some l => l
  | none =>
    let indicator := match
        closestChain (fun n => (classListOf n).contains "bg-black") (pre :: ancs) with
      | some container => firstDescClass "text-xs" container
      | none => none
    match indicator with
    | some ind => jsToLower (jsTrim (textContent ind))
    | none =>
      match closestChain (fun n => jsIncludes (classAttr n) "language-")
          (pre :: ancs) with
      | some par =>
        match langWord (classAttr par) with
        | some w => w
        | none => ""
      | none => ""

/-- The separator row emitted after the first table row uses the first row's
cell count: `cells.map(() => '---')`. -/
def firstRowCellCount (tbl : Node) : Nat :=
  match trDescendants tbl with
  | [] => 0
  | r :: _ => (cellDescendants r).length

/-- The case labels of the `switch (tagName)` in `processNode`; labels that
share a body in the source share a constructor here. -/
inductive TagKind where
  | h1 | h2 | h3 | h4 | h5 | h6
  | strongB | emI | underline | strikeKind
  | codeTag | preTag
  | ulTag | olTag | liTag
  | aTag | imgTag
  | pTag | brTag | hrTag | blockquoteTag | tableTag
  | container
  | otherTag
deriving Repr, DecidableEq

/-- The dispatch of `switch (tagName)` on the lower-cased tag name. -/
def tagCase (t : String) : TagKind :=
  if t = "h1" then .h1 else if t = "h2" then .h2 else if t = "h3" then .h3
  else if t = "h4" then .h4 else if t = "h5" then .h5 else if t = "h6" then .h6
  else if t = "strong" ∨ t = "b" then .strongB
  else if t = "em" ∨ t = "i" then .emI
  else if t = "u" then .underline
  else if t = "s" ∨ t = "strike" ∨ t = "del" then .strikeKind
  else if t = "code" then .codeTag
  else if t = "pre" then .preTag
  else if t = "ul" then .ulTag
  else if t = "ol" then .olTag
  else if t = "li" then .liTag
  else if t = "a" then .aTag
  else if t = "img" then .imgTag
  else if t = "p" then .pTag
  else if t = "br" then .brTag
  else if t = "hr" then .hrTag
  else if t = "blockquote" then .blockquoteTag
  else if t = "table" then .tableTag
  else if t = "div" ∨ t = "span" ∨ t = "section" ∨ t = "article" then .container
  else .otherTag

mutual

/-- `processNode(node)`: recursive descent over the tree.  `ancs` is the chain
of ancestor elements of `n`, nearest first (the source reads it through
`node.parentElement`; `htmlToMarkdown` works on a defensive clone, whose root
has no parent, so the top-level call passes `[]`). -/
def processNode (ancs : List Node) (n : Node) : String :=
  match n with
  | .text s => s
  | .otherKind => ""
  | .elem tag attrs cs =>
    let self := Node.elem tag attrs cs
    let children := childrenJoin (self :: ancs) cs
    match tagCase (jsToLower tag) with
    | .h1 => "# " ++ children ++ "\n\n"
    | .h2 => "## " ++ children ++ "\n\n"
    | .h3 => "### " ++ children ++ "\n\n"
    | .h4 => "#### " ++ children ++ "\n\n"
    | .h5 => "##### " ++ children ++ "\n\n"
    | .h6 => "###### " ++ children ++ "\n\n"
    | .strongB => "**" ++ children ++ "**"
    | .emI => "*" ++ children ++ "*"
    | .underline => "<u>" ++ children ++ "</u>"
    | .strikeKind => "~~" ++ children ++ "~~"
    | .codeTag => if isPreParent ancs then children else "`" ++ children ++ "`"
    | .preTag =>
      let codeContent := match firstDescTag "code" self with
        | some ce => textContent ce
        | none => textContent self
      "\n```" ++ detectLanguage ancs self ++ "\n" ++ codeContent ++ "\n```\n\n"
    | .ulTag =>
      String.intercalate "\n" (processListItems (self :: ancs) false 0 cs) ++ "\n"
    | .olTag =>
      String.intercalate "\n" (processListItems (self :: ancs) true 0 cs) ++ "\n"
    | .liTag => children
    | .aTag => "[" ++ children ++ "](" ++ (getAttr attrs "href").getD "" ++ ")"
    | .imgTag =>
      let alt := (getAttr attrs "alt").getD ""
      "![" ++ (if alt = "" then "image" else alt) ++ "](" ++
        (getAttr attrs "src").getD "" ++ ")"
    | .pTag => children ++ "\n\n"
    | .brTag => "\n"
    | .hrTag => "\n---\n\n"
    | .blockquoteTag =>
      String.intercalate "\n" ((splitNl children.data).map (fun l => "> " ++ l))
        ++ "\n\n"
    | .tableTag => processTable ancs self ++ "\n\n"
    | .container => children
    | .otherTag => children
termination_by (sizeOf n, 1)

/-- `.map(child => this.processNode(child)).join('')` over child nodes;
`ancs` is the ancestor chain of the children (the element itself in front). -/
def childrenJoin (ancs : List Node) : List Node → String
  | [] => ""
  | c :: cs => processNode ancs c ++ childrenJoin ancs cs
termination_by cs => (sizeOf cs, 0)

/-- `processList`: direct `li` element children, converted, trimmed and
prefixed (`- ` or 1-based `n. `); `idx` counts the `li` items seen so far.
`ancs` is the ancestor chain of the children (the list element in front). -/
def processListItems (ancs : List Node) (ordered : Bool) (idx : Nat) :
    List Node → List String
  | [] => []
  | c :: cs =>
    if hasTag "li" c then
      ((if ordered then toString (idx + 1) ++ ". " else "- ") ++
        jsTrim (processNode ancs c)) :: processListItems ancs ordered (idx + 1) cs
    else processListItems ancs ordered idx cs
termination_by cs => (sizeOf cs, 0)

/-- `processTable(tableElement)`: enumerate `tr` descendants in document
order; emit one row line each; after the first row only, a separator row with
the first row's cell count; join with newlines; empty table gives "". -/
def processTable (ancs : List Node) (tbl : Node) : String :=
  match tbl with
  | .elem tag attrs cs =>
    match tableRowLines (Node.elem tag attrs cs :: ancs) cs with
    | [] => ""
    | r0 :: rest =>
      String.intercalate "\n"
        (r0 :: mkRowLine (List.replicate (firstRowCellCount tbl) "---") :: rest)
  | _ => ""
termination_by (sizeOf tbl, 0)

/-- One Markdown line per `tr` element descendant of the given sibling list,
in document order (the fused `querySelectorAll('tr')` + per-row formatting of
the source's `rows.forEach`); `ancs` is the ancestor chain of the listed
nodes. -/
def tableRowLines (ancs : List Node) : List Node → List String
  | [] => []
  | c :: cs =>
    (match c with
     | .elem t a ks =>
       (if jsToLower t = "tr" then
          [mkRowLine (rowCellStrings (Node.elem t a ks :: ancs) ks)]
        else []) ++ tableRowLines (Node.elem t a ks :: ancs) ks
     | _ => []) ++ tableRowLines ancs cs
termination_by cs => (sizeOf cs, 0)

/-- The cell texts of one row: `th`/`td` element descendants in document
order, each `processNode`-converted, trimmed, and pipe-escaped (the fused
`querySelectorAll('th, td')` + `cells.map` of the source). -/
def rowCellStrings (ancs : List Node) : List Node → List String
  | [] => []
  | c :: cs =>
    (match c with
     | .elem t a ks =>
       (if jsToLower t = "th" || jsToLower t = "td" then
          [escapePipes (jsTrim (processNode ancs (Node.elem t a ks)))]
        else []) ++ rowCellStrings (Node.elem t a ks :: ancs) ks
     | _ => []) ++ rowCellStrings ancs cs
termination_by cs => (sizeOf cs, 0)

end

/-- `htmlToMarkdown(element)`: `''` for a missing element; otherwise process a
defensive clone (modelled as conversion with an empty ancestor chain, since
the clone is detached from its parent) and trim the result. -/
def htmlToMarkdown : Option Node → String
  | none => ""
  | some el => jsTrim (processNode [] el)

/-! ### Conversation documents -/

/-- A message: role string as read from the `data-message-author-role`
attribute, content already converted to Markdown. -/
structure Message where
  role : String
  content : String
deriving Repr, DecidableEq

/-- A conversation record as built by `extractCurrentConversation`.  Absent
`title`/`date`/`url` are the empty string, matching JS falsiness of both
`undefined` and `''` in the formatter's guards. -/
structure Conversation where
  title : String
  date : String
  url : String
  messages : List Message
deriving Repr, DecidableEq

/-- The six lines pushed per message by `formatConversation`'s loop:
heading (`## User` when `role === 'user'`, `## Assistant` otherwise), blank,
content, blank, `---`, blank. -/
def msgLines (m : Message) : List String :=
  ["## " ++ (if m.role = "user" then "User" else "Assistant"), "",
   m.content, "", "---", ""]

/-- `formatConversation(conversation)`: title line, blank, optional date/url
lines, blank, `---`, blank, then the per-message lines; joined with newlines,
trimmed, single final newline. -/
def formatConversation (c : Conversation) : String :=
  let lines :=
    ["# " ++ (if c.title = "" then "Untitled Conversation" else c.title), ""]
    ++ (if c.date = "" then [] else ["**Date**: " ++ c.date])
    ++ (if c.url = "" then [] else ["**URL**: " ++ c.url])
    ++ ["", "---", ""]
    ++ c.messages.flatMap msgLines
  jsTrim (String.intercalate "\n" lines) ++ "\n"

/-! ### Filename sanitization -/

/-- The characters removed by `sanitizeFilename`. -/
def invalidFileChars : List Char :=
  ['<', '>', ':', '"', '/', '\\', '|', '?', '*']

/-- Replace every maximal run of `p`-characters by the single character `r`
(the global regex replacements `\s+` → `_` and `_+` → `_`).  `inRun` records
whether the previous character was part of a run. -/
def collapseRuns (p : Char → Bool) (r : Char) : Bool → List Char → List Char
  | _, [] => []
  | inRun, c :: cs =>
    if p c then
      if inRun then collapseRuns p r true cs
      else r :: collapseRuns p r true cs
    else c :: collapseRuns p r false cs

/-- Half of the global regex `^_|_$` replacement: drop one leading
underscore. -/
def dropLeadUnderscore : List Char → List Char
  | '_' :: rest => rest
  | l => l

/-- The other half of `^_|_$`: drop one trailing underscore. -/
def dropTrailUnderscore (l : List Char) : List Char :=
  if l.getLast? = some '_' then l.dropLast else l

/-- The global regex `^_|_$` replacement: remove one leading and one trailing
underscore. -/
def trimUnderscores (cs : List Char) : List Char :=
  dropTrailUnderscore (dropLeadUnderscore cs)

/-- `sanitizeFilename(title)`: remove invalid characters, collapse whitespace
runs to `_`, collapse `_` runs, trim one leading/trailing `_`, truncate to
100 characters, with `'untitled'` for falsy input and empty result. -/
def sanitizeFilename (title : String) : String :=
  if title = "" then "untitled"
  else
    let s1 := title.data.filter (fun c => ¬ c ∈ invalidFileChars)
    let s2 := collapseRuns jsWhitespaceChar '_' false s1
    let s3 := collapseRuns (fun c => c = '_') '_' false s2
    let s4 := trimUnderscores s3
    let s5 := s4.take 100
    if s5 = [] then "untitled" else String.mk s5

/-! ### The sidebar list loader -/

/-- Outcome of `loadAllSidebarConversations` (once a scroll container is in
hand): final visible count, number of loop iterations performed, and the
scroll position on return. -/
structure LoaderResult where
  count : Nat
  iterations : Nat
  scrollTop : Nat
deriving Repr, DecidableEq

/-- The scroll loop of `loadAllSidebarConversations`.  `counts k` is the
visible-entry count observed by the `k`-th recount (`counts 0` is the count
taken before the loop).  The loop condition `attempts < maxScrollAttempts`
is carried as `fuel = 50 - attempts`; `currentCount` and `noChange` mirror
the source variables, and `iters` counts loop-body executions.  The loop
sets `scrollTop = scrollHeight` each iteration but never reads it back;
every exit path of the source then sets `scrollTop = 0`, recorded in the
result. -/
def loaderLoop (counts : Nat → Nat) : Nat → Nat → Nat → Nat → LoaderResult
  | 0, currentCount, _, iters => ⟨currentCount, iters, 0⟩
  | fuel + 1, currentCount, noChange, iters =>
    let cur := counts (iters + 1)
    if cur = currentCount then
      if noChange + 1 ≥ 3 then ⟨cur, iters + 1, 0⟩
      else loaderLoop counts fuel cur (noChange + 1) (iters + 1)
    else loaderLoop counts fuel cur 0 (iters + 1)

/-- `loadAllSidebarConversations` once the scroll container is found: run the
loop from the initial count and return the final count with the scroll reset
to top. -/
def loadAllSidebarConversations (counts : Nat → Nat) : LoaderResult :=
  loaderLoop counts 50 (counts 0) 0 0

/-! ### The batch orchestrator -/

/-- A sidebar entry (`getAllConversationLinks` item): id and title (href is
`'/c/' ++ id`). -/
structure ConvLink where
  id : String
  title : String
deriving Repr, DecidableEq

/-- Behaviour of one `chrome.runtime.sendMessage({action:'download',…})`
round-trip: either the message channel fails (`chrome.runtime.lastError`,
which the source turns into a rejected promise), or the Download Sink's
`downloadFile` answers with a `{success}` response. -/
inductive SinkResult where
  | channelError (msg : String)
  | response (success : Bool)
deriving Repr, DecidableEq

/-- Environment of one batch run, indexed by candidate position: whether the
sidebar link element is found, whether `waitForConversationLoad` succeeds,
what `extractCurrentConversation` yields, the sink behaviour, and `ext i`,
the ids written into the persisted Tracking Store by concurrent actors (the
Change Watcher) at the suspension points before candidate `i` is examined. -/
structure BatchEnv where
  linkFound : Nat → Bool
  loadOk : Nat → Bool
  extract : Nat → Option Conversation
  sink : Nat → SinkResult
  ext : Nat → List String

/-- Add an id to a stored id set (JS `Set.add` then persist: membership-based,
insertion order at the end). -/
def storeAdd (store : List String) (id : String) : List String :=
  if id ∈ store then store else store ++ [id]

/-- Apply a batch of concurrent additions to the persisted store. -/
def storeAddAll (store : List String) (ids : List String) : List String :=
  ids.foldl storeAdd store

/-- `markAsExported(conversationId)`: read the persisted set fresh, add the
id, write it back. -/
def markAsExported (store : List String) (id : String) : List String :=
  storeAdd store id

/-- State threaded through `exportAllConversations`: the persisted Tracking
Store, the in-memory `exportedSet` read once at run start, the `results`
counters and error list, and the trace of Download Sink submissions
`(filename, content, conversationId)`. -/
structure BatchState where
  store : List String
  localSet : List String
  total : Nat
  exported : Nat
  skipped : Nat
  failed : Nat
  errors : List String
  sinkCalls : List (String × String × String)
deriving Repr, DecidableEq

/-- The body of the `for` loop of `exportAllConversations` for candidate `i`.
Concurrent store writes (`env.ext i`) land first (the loop body sits between
`await` suspension points); then: membership check against the in-memory
`exportedSet` (skip), link lookup failure, load timeout, extraction failure
(each a per-item failure), otherwise submit to the sink; a channel error is
caught as a per-item failure; any response — its `success` flag is never
inspected on this path — leads to `markAsExported`, updating the local set,
and counting the item exported. -/
def processCandidate (env : BatchEnv) (i : Nat) (link : ConvLink)
    (st : BatchState) : BatchState :=
  let st := { st with store := storeAddAll st.store (env.ext i) }
  if link.id ∈ st.localSet then
    { st with skipped := st.skipped + 1 }
  else if ¬ env.linkFound i then
    { st with failed := st.failed + 1,
              errors := st.errors ++ ["Link not found: " ++ link.title] }
  else if ¬ env.loadOk i then
    { st with failed := st.failed + 1,
              errors := st.errors ++ ["Timeout loading: " ++ link.title] }
  else
    match env.extract i with
    | none =>
      { st with failed := st.failed + 1,
                errors := st.errors ++ ["Failed to extract: " ++ link.title] }
    | some conv =>
      let markdown := formatConversation conv
      let filename := sanitizeFilename conv.title ++ ".md"
      let st := { st with
        sinkCalls := st.sinkCalls ++ [(filename, markdown, link.id)] }
      match env.sink i with
      | .channelError msg =>
        { st with failed := st.failed + 1,
                  errors := st.errors ++
                    ["Error: " ++ link.title ++ " - " ++ msg] }
      | .response _ =>
        { st with store := markAsExported st.store link.id,
                  localSet := st.localSet ++ [link.id],
                  exported := st.exported + 1 }

/-- The candidate loop, in list order, one at a time. -/
def runCandidates (env : BatchEnv) : List ConvLink → Nat → BatchState →
    BatchState
  | [], _, st => st
  | l :: rest, i, st => runCandidates env rest (i + 1) (processCandidate env i l st)

/-- `getExportedConversations()` at run start: the single fresh read of the
persisted store into the in-memory `exportedSet`; counters start at zero. -/
def initBatchState (store : List String) (total : Nat) : BatchState :=
  ⟨store, store, total, 0, 0, 0, [], []⟩

/-- `exportAllConversations`: abort the whole run when no sidebar candidates
were discovered; otherwise run the candidate loop. -/
def exportAllConversations (env : BatchEnv) (links : List ConvLink)
    (store : List String) : Except String BatchState :=
  match links with
  | [] => .error "No conversations found in sidebar"
  | _ => .ok (runCandidates env links 0 (initBatchState store links.length))

/-! ### Supporting lemmas -/

set_option maxRecDepth 100000

/-- Characters produced by `collapseRuns` are the replacement character or
non-run characters of the input. -/
theorem mem_collapseRuns {p : Char → Bool} {r : Char} :
    ∀ {b : Bool} {l : List Char} {c : Char}, c ∈ collapseRuns p r b l →
      c = r ∨ (c ∈ l ∧ p c = false) := by
  intro b l
  induction l generalizing b with
  | nil => intro c h; simp [collapseRuns] at h
  | cons a as ih =>
    intro c h
    simp only [collapseRuns] at h
    by_cases hp : p a
    · simp only [hp, if_true] at h
      by_cases hb : b
      · rcases ih (hb ▸ h) with h' | h'
        · exact Or.inl h'
        · exact Or.inr ⟨List.mem_cons_of_mem _ h'.1, h'.2⟩
      · simp only [hb, if_false] at h
        rcases List.mem_cons.mp h with h' | h'
        · exact Or.inl h'
        · rcases ih h' with h'' | h''
          · exact Or.inl h''
          · exact Or.inr ⟨List.mem_cons_of_mem _ h''.1, h''.2⟩
    · simp only [hp, if_false] at h
      rcases List.mem_cons.mp h with h' | h'
      · subst h'
        exact Or.inr ⟨List.mem_cons_self _ _, by simpa using hp⟩
      · rcases ih h' with h'' | h''
        · exact Or.inl h''
        · exact Or.inr ⟨List.mem_cons_of_mem _ h''.1, h''.2⟩

/-- `trimUnderscores` only removes characters. -/
theorem mem_trimUnderscores {l : List Char} {c : Char}
    (h : c ∈ trimUnderscores l) : c ∈ l := by
  have h1 : c ∈ dropLeadUnderscore l := by
    unfold trimUnderscores dropTrailUnderscore at h
    split at h
    · exact List.dropLast_subset _ h
    · exact h
  unfold dropLeadUnderscore at h1
  split at h1
  · exact List.mem_cons_of_mem _ h1
  · exact h1

/-! ### C1: the end-to-end formatting scenario -/

/-- C1, counterexample: for title "Greeting", no date/url, messages
(user, "Hi") and (assistant, "Hello"), the formatter does NOT produce the
claimed string with a single blank line between the title and the first
separator: `formatConversation` pushes one blank after the title and another
after the (absent) metadata block, so two blank lines appear there. -/
theorem c1_counterexample :
    formatConversation ⟨"Greeting", "", "", [⟨"user", "Hi"⟩, ⟨"assistant", "Hello"⟩]⟩ ≠
      "# Greeting\n\n---\n\n## User\n\nHi\n\n---\n\n## Assistant\n\nHello\n\n---\n" := by
  decide

/-- C1, amended: the document produced for that conversation is exactly
`"# Greeting\n\n\n---\n\n## User\n\nHi\n\n---\n\n## Assistant\n\nHello\n\n---\n"`
(two blank lines between title and first separator, trailing whitespace
trimmed, single final newline). -/
theorem c1_formatConversation_greeting :
    formatConversation ⟨"Greeting", "", "", [⟨"user", "Hi"⟩, ⟨"assistant", "Hello"⟩]⟩ =
      "# Greeting\n\n\n---\n\n## User\n\nHi\n\n---\n\n## Assistant\n\nHello\n\n---\n" := by
  decide

/-! ### C4: the filename sanitizer -/

/-- C4, counterexample: `sanitizeFilename "Hello: World/Test"` is not
`"Hello_World_Test"` — removing `/` leaves `"World"` and `"Test"` adjacent
with no separator. -/
theorem c4_counterexample :
    sanitizeFilename "Hello: World/Test" ≠ "Hello_World_Test" := by decide

/-- C4, amended: the sanitizer maps `"Hello: World/Test"` to
`"Hello_WorldTest"`, maps empty input to `"untitled"`, truncates a
200-letter input to 100 characters, and in general outputs at most 100
characters containing neither the removed characters
`< > : " / \ | ? *` nor whitespace. -/
theorem c4_sanitizeFilename_behaviour :
    sanitizeFilename "Hello: World/Test" = "Hello_WorldTest" ∧
    sanitizeFilename "" = "untitled" ∧
    (sanitizeFilename (String.mk (List.replicate 200 'a'))).length = 100 ∧
    (∀ s : String, (sanitizeFilename s).length ≤ 100) ∧
    (∀ s : String, ∀ c ∈ (sanitizeFilename s).data,
      ¬ c ∈ invalidFileChars ∧ jsWhitespaceChar c = false) := by
  refine ⟨by decide, by decide, by decide, ?_, ?_⟩
  · intro s
    unfold sanitizeFilename
    split
    · decide
    · dsimp only
      split
      · decide
      · show (List.take 100 _).length ≤ 100
        simp [List.length_take]
  · intro s c hc
    have untitled : ∀ c ∈ ("untitled" : String).data,
        ¬ c ∈ invalidFileChars ∧ jsWhitespaceChar c = false := by decide
    unfold sanitizeFilename at hc
    split at hc
    · exact untitled c hc
    · dsimp only at hc
      split at hc
      · exact untitled c hc
      · have h4 := mem_trimUnderscores (List.take_subset _ _ hc)
        have underscore : ¬ '_' ∈ invalidFileChars ∧ jsWhitespaceChar '_' = false := by
          decide
        rcases mem_collapseRuns h4 with h3 | ⟨h3, _⟩
        · exact h3 ▸ underscore
        · rcases mem_collapseRuns h3 with h2 | ⟨h2, hw⟩
          · exact h2 ▸ underscore
          · have := List.mem_filter.mp h2
            exact ⟨by simpa using this.2, hw⟩

/-! ### C8: the sidebar list loader -/

/-- The loop performs at most `fuel` further iterations. -/
theorem loaderLoop_iterations_le (counts : Nat → Nat) :
    ∀ fuel cur nc iters,
      (loaderLoop counts fuel cur nc iters).iterations ≤ iters + fuel := by
  intro fuel
  induction fuel with
  | zero => intro cur nc iters; simp [loaderLoop]
  | succ f ih =>
    intro cur nc iters
    simp only [loaderLoop]
    split
    · split
      · simp
      · exact le_trans (ih _ _ _) (by omega)
    · exact le_trans (ih _ _ _) (by omega)

/-- Every exit path of the loop resets the scroll position to top. -/
theorem loaderLoop_scrollTop (counts : Nat → Nat) :
    ∀ fuel cur nc iters, (loaderLoop counts fuel cur nc iters).scrollTop = 0 := by
  intro fuel
  induction fuel with
  | zero => intro cur nc iters; simp [loaderLoop]
  | succ f ih =>
    intro cur nc iters
    simp only [loaderLoop]
    split
    · split
      · rfl
      · exact ih _ _ _
    · exact ih _ _ _

/-- C8: the sidebar list loader always terminates within the 50-iteration
cap and always restores the scroll position to top; with three consecutive
no-growth recounts it stops after exactly 3 iterations; with a count that
never stops increasing it runs exactly the capped 50 iterations. -/
theorem c8_loader_bounded :
    (∀ counts : Nat → Nat,
      (loadAllSidebarConversations counts).iterations ≤ 50 ∧
      (loadAllSidebarConversations counts).scrollTop = 0) ∧
    (∀ counts : Nat → Nat, counts 1 = counts 0 → counts 2 = counts 1 →
      counts 3 = counts 2 → (loadAllSidebarConversations counts).iterations = 3) ∧
    (loadAllSidebarConversations (fun i => i)).iterations = 50 := by
  refine ⟨?_, ?_, by decide⟩
  · intro counts
    exact ⟨by simpa using loaderLoop_iterations_le counts 50 (counts 0) 0 0,
      loaderLoop_scrollTop counts 50 (counts 0) 0 0⟩
  · intro counts h1 h2 h3
    have h2' : counts 2 = counts 0 := h2.trans h1
    have h3' : counts 3 = counts 0 := h3.trans h2'
    show (loaderLoop counts (49 + 1) (counts 0) 0 0).iterations = 3
    rw [loaderLoop]
    simp only [Nat.zero_add, h1]
    norm_num
    show (loaderLoop counts (48 + 1) (counts 0) 1 1).iterations = 3
    rw [loaderLoop]
    simp only [Nat.reduceAdd, h2']
    norm_num
    show (loaderLoop counts (47 + 1) (counts 0) 2 2).iterations = 3
    rw [loaderLoop]
    simp only [Nat.reduceAdd, h3']
    norm_num

/-- C8, witness: a constant count stops after exactly 3 iterations. -/
theorem c8_loader_bounded_witness :
    (loadAllSidebarConversations (fun _ => 7)).iterations = 3 :=
  c8_loader_bounded.2.1 (fun _ => 7) rfl rfl rfl

/-! ### C10: role-to-heading rendering -/

/-- C10: in the produced document, a message's heading line is `## User`
exactly when its role is the string `user`; any other role — `assistant` or
any value outside the role enum — is rendered `## Assistant`
(`msgLines` is the per-message block emitted by `formatConversation`). -/
theorem c10_role_heading (m : Message) :
    ((msgLines m).head? = some ("## User") ↔ m.role = "user") ∧
    (¬ m.role = "user" → (msgLines m).head? = some ("## Assistant")) := by
  constructor
  · constructor
    · intro h
      by_contra hr
      simp only [msgLines, hr, if_false, List.head?] at h
      exact absurd (Option.some.inj h) (by decide)
    · intro hr
      simp [msgLines, hr]
  · intro hr
    simp [msgLines, hr]

/-- C10, witness: role `assistant` gets the `## Assistant` heading. -/
theorem c10_role_heading_witness :
    (msgLines ⟨"assistant", "Hello"⟩).head? = some ("## Assistant") :=
  (c10_role_heading ⟨"assistant", "Hello"⟩).2 (by decide)

/-! ### C5: inline code and the pre parent -/

/-- C5: for every `code` element the transducer processes, the output is the
converted inner content wrapped in single backticks, except when the parent
element is a `pre` (a code-block container), in which case the inner content
is emitted with no backtick wrapping; concrete instances for both cases, the
inner content being the raw text for text-only children. -/
theorem c5_inline_code_backticks :
    (∀ (ancs : List Node) (attrs : List (String × String)) (cs : List Node),
      processNode ancs (.elem "code" attrs cs) =
        if isPreParent ancs then childrenJoin (Node.elem "code" attrs cs :: ancs) cs
        else "`" ++ childrenJoin (Node.elem "code" attrs cs :: ancs) cs ++ "`") ∧
    processNode [Node.elem "pre" [] []] (.elem "code" [] [.text "x"]) = "x" ∧
    processNode [] (.elem "code" [] [.text "x"]) = "`x`" := by
  refine ⟨?_, ?_, ?_⟩
  · intro ancs attrs cs
    simp only [processNode]
    rfl
  · simp only [processNode, childrenJoin]
    decide
  · simp only [processNode, childrenJoin]
    decide

/-! ### C9: determinism and totality of the transducer -/

/-- The tag names enumerated by the `switch` of `processNode`. -/
def handledTags : List String :=
  ["h1", "h2", "h3", "h4", "h5", "h6", "strong", "b", "em", "i", "u",
   "s", "strike", "del", "code", "pre", "ul", "ol", "li", "a", "img",
   "p", "br", "hr", "blockquote", "table", "div", "span", "section",
   "article"]

/-- A tag outside the enumerated set dispatches to the default case. -/
theorem tagCase_eq_otherTag (t : String) (h : ¬ t ∈ handledTags) :
    tagCase t = .otherTag := by
  simp only [handledTags, List.mem_cons, List.not_mem_nil, or_false,
    not_or] at h
  obtain ⟨e1, e2, e3, e4, e5, e6, e7, e8, e9, e10, e11, e12, e13, e14, e15,
    e16, e17, e18, e19, e20, e21, e22, e23, e24, e25, e26, e27, e28, e29,
    e30⟩ := h
  simp [tagCase, e1, e2, e3, e4, e5, e6, e7, e8, e9, e10, e11, e12, e13,
    e14, e15, e16, e17, e18, e19, e20, e21, e22, e23, e24, e25, e26, e27,
    e28, e29, e30]

/-- C9: the Markdown transducer is deterministic and total — conversion is a
pure function, so `convert(f) = convert(f)` for every fragment, and an
element whose (lower-cased) tag is outside the enumerated tag set is
converted to the concatenation of its converted children. -/
theorem c9_deterministic_total :
    (∀ e : Option Node, htmlToMarkdown e = htmlToMarkdown e) ∧
    (∀ (ancs : List Node) (tag : String) (attrs : List (String × String))
      (cs : List Node), ¬ jsToLower tag ∈ handledTags →
      processNode ancs (.elem tag attrs cs) =
        childrenJoin (Node.elem tag attrs cs :: ancs) cs) := by
  refine ⟨fun _ => rfl, ?_⟩
  intro ancs tag attrs cs h
  simp only [processNode, tagCase_eq_otherTag (jsToLower tag) h]

/-- C9, witness: an element with the unknown tag `custom` converts to its
children's concatenated conversion. -/
theorem c9_deterministic_total_witness :
    processNode [] (.elem "custom" [] [.text "x", .elem "b" [] [.text "y"]]) =
      childrenJoin
        [Node.elem "custom" [] [.text "x", .elem "b" [] [.text "y"]]]
        [.text "x", .elem "b" [] [.text "y"]] :=
  c9_deterministic_total.2 [] "custom" [] [.text "x", .elem "b" [] [.text "y"]]
    (by decide)

/-! ### C6: the table formatter -/

/-- The C6 example table: header row `[H1, H2]`, one data row `[a, b]`. -/
def tableC6 : Node :=
  .elem "table" []
    [.elem "tr" [] [.elem "th" [] [.text "H1"], .elem "th" [] [.text "H2"]],
     .elem "tr" [] [.elem "td" [] [.text "a"], .elem "td" [] [.text "b"]]]

/-- C6: the table formatter emits one line per row, a separator row sized by
the first row's cell count directly after the first row and nowhere else, and
an empty string for a rowless table; on the `[H1,H2]/[a,b]` table it yields
exactly `| H1 | H2 |`, `| --- | --- |`, `| a | b |` joined by newlines, and
a literal pipe in a cell is escaped as `\|`. -/
theorem c6_processTable :
    (∀ (ancs : List Node) (tag : String) (attrs : List (String × String))
      (cs : List Node),
      (tableRowLines (Node.elem tag attrs cs :: ancs) cs = [] →
        processTable ancs (.elem tag attrs cs) = "") ∧
      (∀ r0 rest, tableRowLines (Node.elem tag attrs cs :: ancs) cs = r0 :: rest →
        processTable ancs (.elem tag attrs cs) =
          String.intercalate "\n"
            (r0 :: mkRowLine (List.replicate
              (firstRowCellCount (.elem tag attrs cs)) "---") :: rest))) ∧
    processTable [] tableC6 = "| H1 | H2 |\n| --- | --- |\n| a | b |" ∧
    processTable []
      (.elem "table" [] [.elem "tr" [] [.elem "td" [] [.text "a|b"]]]) =
      "| a\\|b |\n| --- |" ∧
    processTable [] (.elem "table" [] []) = "" := by
  refine ⟨?_, ?_, ?_, ?_⟩
  · intro ancs tag attrs cs
    constructor
    · intro h
      simp only [processTable, h]
    · intro r0 rest h
      simp only [processTable, h]
  · simp only [tableC6, processTable, tableRowLines, rowCellStrings,
      processNode, childrenJoin]
    decide
  · simp only [processTable, tableRowLines, rowCellStrings, processNode,
      childrenJoin]
    decide
  · simp only [processTable, tableRowLines]

/-- C6, witness: a table whose only child is a text node has no rows and
formats to the empty string. -/
theorem c6_processTable_witness :
    processTable [] (.elem "table" [] [.text "r"]) = "" :=
  (c6_processTable.1 [] "table" [] [.text "r"]).1 (by simp [tableRowLines])

/-! ### C2, C3, C7: the batch orchestrator -/

/-- An environment in which every candidate succeeds and no concurrent store
writes occur. -/
def envAllOk : BatchEnv :=
  ⟨fun _ => true, fun _ => true, fun _ => some ⟨"T", "", "", [⟨"user", "Hi"⟩]⟩,
   fun _ => .response true, fun _ => []⟩

/-- Environment for C2: a concurrent actor persists id `X` into the Tracking
Store while the batch run is already past its single store read. -/
def envC2 : BatchEnv :=
  ⟨fun _ => true, fun _ => true, fun _ => some ⟨"T", "", "", [⟨"user", "Hi"⟩]⟩,
   fun _ => .response true, fun i => if i = 0 then ["X"] else []⟩

/-- C2, counterexample: at candidate 0's membership check, id `X` IS a member
of the persisted Tracking Store (a concurrent write landed after the run's
single read at start), yet the run does not skip the candidate and submits
it to the Download Sink — the check is made against the cached in-memory
copy, not a fresh read. -/
theorem c2_counterexample :
    "X" ∈ storeAddAll (initBatchState [] 1).store (envC2.ext 0) ∧
    (runCandidates envC2 [⟨"X", "t"⟩] 0 (initBatchState [] 1)).skipped = 0 ∧
    (runCandidates envC2 [⟨"X", "t"⟩] 0 (initBatchState [] 1)).sinkCalls.map
      (fun c => c.2.2) = ["X"] := by decide

/-- C2, amended: the Tracking Store is read from persistence once at run
start into the in-memory `exportedSet`; each candidate is checked against
that snapshot (augmented with ids exported earlier in the same run), and a
candidate whose id is in it increments `skipped` by exactly 1 with no other
state change — in particular zero Download Sink calls for it. -/
theorem c2_skip_via_run_start_snapshot :
    (∀ (store : List String) (total : Nat),
      (initBatchState store total).localSet = store) ∧
    (∀ (env : BatchEnv) (i : Nat) (link : ConvLink) (st : BatchState),
      link.id ∈ st.localSet →
      processCandidate env i link st =
        { st with store := storeAddAll st.store (env.ext i),
                  skipped := st.skipped + 1 }) := by
  refine ⟨fun _ _ => rfl, ?_⟩
  intro env i link st h
  unfold processCandidate
  dsimp only
  rw [if_pos h]

/-- C2, witness: a candidate whose id is in the run-start snapshot is counted
skipped and nothing else changes. -/
theorem c2_skip_witness :
    processCandidate envAllOk 0 ⟨"X", "t"⟩ (initBatchState ["X"] 1) =
      { initBatchState ["X"] 1 with
          store := storeAddAll (initBatchState ["X"] 1).store (envAllOk.ext 0),
          skipped := (initBatchState ["X"] 1).skipped + 1 } :=
  c2_skip_via_run_start_snapshot.2 envAllOk 0 ⟨"X", "t"⟩ (initBatchState ["X"] 1)
    (by decide)

/-- Environment for C3: the Download Sink reports failure (`{success:false}`,
as `downloadFile` does when `chrome.downloads.download` throws). -/
def envC3 : BatchEnv :=
  ⟨fun _ => true, fun _ => true, fun _ => some ⟨"T", "", "", [⟨"user", "Hi"⟩]⟩,
   fun _ => .response false, fun _ => []⟩

/-- Environment contrasting C3: the message channel itself errors out, which
the source catches as a per-item failure. -/
def envC3chan : BatchEnv :=
  ⟨fun _ => true, fun _ => true, fun _ => some ⟨"T", "", "", [⟨"user", "Hi"⟩]⟩,
   fun _ => .channelError "boom", fun _ => []⟩

/-- C3: when the Download Sink reports failure via a `{success:false}`
response, the batch loop never inspects the flag: the item is counted
`exported` (not `failed`) and its id IS persisted into the Tracking Store —
contradicting the claim; only a channel-level error takes the per-item
failure path, on which the id is indeed never stored. -/
theorem c3_sink_failure_still_marked_exported :
    (runCandidates envC3 [⟨"Y", "t"⟩] 0 (initBatchState [] 1)).exported = 1 ∧
    (runCandidates envC3 [⟨"Y", "t"⟩] 0 (initBatchState [] 1)).failed = 0 ∧
    "Y" ∈ (runCandidates envC3 [⟨"Y", "t"⟩] 0 (initBatchState [] 1)).store ∧
    (runCandidates envC3chan [⟨"Y", "t"⟩] 0 (initBatchState [] 1)).failed = 1 ∧
    (runCandidates envC3chan [⟨"Y", "t"⟩] 0 (initBatchState [] 1)).exported = 0 ∧
    ¬ "Y" ∈ (runCandidates envC3chan [⟨"Y", "t"⟩] 0 (initBatchState [] 1)).store := by
  decide

/-- Each loop iteration settles its candidate into exactly one of the three
counters, and failure paths append exactly one diagnostic. -/
theorem processCandidate_tally (env : BatchEnv) (i : Nat) (link : ConvLink)
    (st : BatchState) :
    (processCandidate env i link st).exported +
        (processCandidate env i link st).skipped +
        (processCandidate env i link st).failed =
      st.exported + st.skipped + st.failed + 1 ∧
    (processCandidate env i link st).errors.length + st.failed =
      st.errors.length + (processCandidate env i link st).failed ∧
    (processCandidate env i link st).total = st.total := by
  unfold processCandidate
  dsimp only
  repeat' split
  all_goals refine ⟨by simp; try omega, by simp; try omega, by simp⟩

/-- The candidate loop accumulates the per-item tallies. -/
theorem runCandidates_invariant (env : BatchEnv) :
    ∀ (links : List ConvLink) (i : Nat) (st : BatchState),
      ((runCandidates env links i st).exported +
          (runCandidates env links i st).skipped +
          (runCandidates env links i st).failed =
        st.exported + st.skipped + st.failed + links.length) ∧
      ((runCandidates env links i st).errors.length + st.failed =
        st.errors.length + (runCandidates env links i st).failed) ∧
      (runCandidates env links i st).total = st.total := by
  intro links
  induction links with
  | nil => intro i st; simp [runCandidates]
  | cons l rest ih =>
    intro i st
    have hstep := processCandidate_tally env i l st
    have hrest := ih (i + 1) (processCandidate env i l st)
    simp only [runCandidates, List.length_cons]
    refine ⟨?_, ?_, ?_⟩ <;> omega

/-- C7: every processed candidate increments exactly one of
`{exported, skipped, failed}`; every failure appends exactly one diagnostic;
and a run over a non-empty candidate list completes with a full tally:
the three counters sum to the number of candidates, the error list is as
long as the failure count, and `total` is the candidate count. -/
theorem c7_full_tally :
    (∀ (env : BatchEnv) (i : Nat) (link : ConvLink) (st : BatchState),
      (processCandidate env i link st).exported +
          (processCandidate env i link st).skipped +
          (processCandidate env i link st).failed =
        st.exported + st.skipped + st.failed + 1 ∧
      (processCandidate env i link st).errors.length + st.failed =
        st.errors.length + (processCandidate env i link st).failed) ∧
    (∀ (env : BatchEnv) (links : List ConvLink) (store : List String),
      ¬ links = [] →
      exportAllConversations env links store =
        .ok (runCandidates env links 0 (initBatchState store links.length)) ∧
      (runCandidates env links 0 (initBatchState store links.length)).exported +
          (runCandidates env links 0 (initBatchState store links.length)).skipped +
          (runCandidates env links 0 (initBatchState store links.length)).failed =
        links.length ∧
      (runCandidates env links 0 (initBatchState store links.length)).errors.length =
        (runCandidates env links 0 (initBatchState store links.length)).failed ∧
      (runCandidates env links 0 (initBatchState store links.length)).total =
        links.length) := by
  constructor
  · intro env i link st
    exact ⟨(processCandidate_tally env i link st).1,
      (processCandidate_tally env i link st).2.1⟩
  · intro env links store h
    have inv := runCandidates_invariant env links 0 (initBatchState store links.length)
    simp only [initBatchState] at inv ⊢
    simp only [List.length_nil] at inv
    refine ⟨?_, by omega, by omega, by simpa using inv.2.2⟩
    cases links with
    | nil => exact absurd rfl h
    | cons l rest => rfl

/-- C7, witness: a singleton run tallies to 1. -/
theorem c7_full_tally_witness :
    (runCandidates envAllOk [⟨"A", "t"⟩] 0 (initBatchState [] 1)).exported +
        (runCandidates envAllOk [⟨"A", "t"⟩] 0 (initBatchState [] 1)).skipped +
        (runCandidates envAllOk [⟨"A", "t"⟩] 0 (initBatchState [] 1)).failed = 1 :=
  (c7_full_tally.2 envAllOk [⟨"A", "t"⟩] [] (by decide)).2.1

/-- C4, witness: the sanitizer's general character guarantee at a concrete
character of a concrete output. -/
theorem c4_sanitizeFilename_witness :
    ¬ 'H' ∈ invalidFileChars ∧ jsWhitespaceChar 'H' = false :=
  c4_sanitizeFilename_behaviour.2.2.2.2 "Hello" 'H' (by decide)
